import Mathlib

/-!
Verification of the piring-sehat backend data-access layer and auth gate.

The JavaScript source (src/services/foodLogsService.js, src/middleware/auth.js)
is shallowly embedded: the Supabase store is a pure in-memory state, the
awaited Supabase responses are explicit `QueryResult` records, JavaScript
dynamic values are the inductive `JSValue`, and JavaScript numbers (which may
be NaN after coercion) are the inductive `JSNum` over `Int`.
-/

namespace PiringSehat

/-- A JavaScript number as it arises in this code base: either NaN or an
integer value.  All numeric literals appearing in the source are integers;
`Number(...)` coercion of a non-numeric string yields NaN.  The `val`
carrier is an unbounded integer: operations on it model exact arithmetic,
which agrees with IEEE-754 doubles only while magnitudes stay within the
exactly-representable range (at most 2^53).  Where rounding matters, the
refined addition `jsAddD` below is used instead of `jsAdd`. -/
inductive JSNum where
  | nan : JSNum
  | val : Int → JSNum
deriving DecidableEq, Repr

/-- The fragment of JavaScript values flowing through the service functions:
`null`, `undefined`, numbers and strings. -/
inductive JSValue where
  | null : JSValue
  | undefined : JSValue
  | num : JSNum → JSValue
  | str : String → JSValue
deriving DecidableEq, Repr

/-- JavaScript truthiness test (`!v` is `jsFalsy v`): `null`, `undefined`,
`NaN`, `0` and the empty string are falsy. -/
def jsFalsy : JSValue → Bool
  | .null => true
  | .undefined => true
  | .num .nan => true
  | .num (.val n) => n == 0
  | .str s => s == ""

/-- The JavaScript `||` operator: returns `b` when `a` is falsy, else `a`. -/
def jsOr (a b : JSValue) : JSValue :=
  if jsFalsy a then b else a

/-- Decimal digits of a character list, as a number; `none` when the list is
empty or contains a non-digit. -/
def parseDigits : List Char → Option Nat
  | [] => none
  | cs => go cs 0
where
  go : List Char → Nat → Option Nat
    | [], acc => some acc
    | c :: cs, acc =>
      if '0'.toNat ≤ c.toNat ∧ c.toNat ≤ '9'.toNat then
        go cs (acc * 10 + (c.toNat - '0'.toNat))
      else none

/-- `Number(s)` on a string, for the fragment used here: the empty string
coerces to 0, an integer literal (optionally negative) to its value,
anything else to NaN. -/
def parseJSNumber (s : String) : JSNum :=
  match s.data with
  | [] => .val 0
  | '-' :: rest =>
    match parseDigits rest with
    | some n => .val (-(n : Int))
    | none => .nan
  | cs =>
    match parseDigits cs with
    | some n => .val (n : Int)
    | none => .nan

/-- JavaScript `Number(v)` coercion on the modelled value fragment. -/
def toNumber : JSValue → JSNum
  | .null => .val 0
  | .undefined => .nan
  | .num n => n
  | .str s => parseJSNumber s

/-- JavaScript `+` on numbers in exact integer arithmetic: NaN is
absorbing.  This coincides with IEEE-754 double addition exactly as long as
every operand and every sum stays within magnitude 2^53; the refinement
`jsAddD` below adds the round-to-nearest-even behaviour beyond that range. -/
def jsAdd : JSNum → JSNum → JSNum
  | .nan, _ => .nan
  | _, .nan => .nan
  | .val a, .val b => .val (a + b)

/-- Truthiness of an optional string (a JS variable holding `undefined` or a
string): absent and the empty string are falsy. -/
def optStrFalsy : Option String → Bool
  | none => true
  | some s => s.data == []

/-- Whether the character list `s` begins with the character list `p`. -/
def charsBeginWith : List Char → List Char → Bool
  | _, [] => true
  | [], _ :: _ => false
  | c :: cs, d :: ds => c == d && charsBeginWith cs ds

/-- `s.startsWith(p)` on JavaScript strings. -/
def strBeginsWith (s p : String) : Bool :=
  charsBeginWith s.data p.data

/-- `s.slice(n)` on JavaScript strings (all strings here are ASCII, so the
character index equals the JavaScript UTF-16 index). -/
def strSlice (s : String) (n : Nat) : String :=
  ⟨s.data.drop n⟩

/-- `email.split('@')[0]`: the characters before the first `@` (the whole
string when there is no `@`). -/
def emailLocalPart (e : String) : String :=
  ⟨e.data.takeWhile (fun c => c != '@')⟩

/-! ## Data model

The external store owns two tables used by the claims (`food_logs`, `users`)
plus the foods catalog `makanan`.  Dates are modelled as `Nat` day indices:
the store compares `YYYY-MM-DD` strings, which is order-isomorphic to
comparing day numbers. -/

/-- A row of the `food_logs` table. -/
structure FoodLog where
  id : Nat
  user_id : String
  date : Nat
  food_name_custom : JSValue
  calories : JSValue
  food_id : Option Nat
  logged_at : Nat
deriving DecidableEq, Repr

/-- A row of the `users` table. -/
structure UserRow where
  id : Nat
  firebase_uid : String
  email : Option String
  username : Option String
  daily_calorie_target : JSValue
deriving DecidableEq, Repr

/-- A row of the foods catalog table `makanan`. -/
structure MakananRow where
  id : Nat
  proteins : JSValue
  fat : JSValue
  carbohydrate : JSValue
deriving DecidableEq, Repr

/-- The external store state: the two tables, the catalog, and the
auto-increment counter the store uses to assign new user ids. -/
structure DB where
  food_logs : List FoodLog
  users : List UserRow
  makanan : List MakananRow
  nextUserId : Nat
deriving DecidableEq, Repr

/-- The shape of an awaited Supabase call: `{ data, error }`, where `data`
is `null` on errors or on `maybeSingle` misses. -/
structure QueryResult (α : Type) where
  data : Option α
  error : Option String
deriving DecidableEq, Repr

/-! ## foodLogsService: food_logs operations -/

/-- Whether a `food_logs` row matches `eq('user_id', u).eq('date', d)`. -/
def matchesUserDate (u : String) (d : Nat) (r : FoodLog) : Bool :=
  r.user_id == u && r.date == d

/-- Ordering used by `order('logged_at', { ascending: true })`. -/
def loggedAtLE (a b : FoodLog) : Prop :=
  a.logged_at ≤ b.logged_at

instance : DecidableRel loggedAtLE := fun a b => Nat.decLe a.logged_at b.logged_at

instance : IsTotal FoodLog loggedAtLE :=
  ⟨fun a b => Nat.le_total a.logged_at b.logged_at⟩

instance : IsTrans FoodLog loggedAtLE :=
  ⟨fun _ _ _ => Nat.le_trans⟩

/-- The store's evaluation of the `getFoodLogsByDate` select: filter by user
and date, order by `logged_at` ascending; a healthy store reports no error. -/
def selectFoodLogsByDate (db : DB) (userId : String) (date : Nat) :
    QueryResult (List FoodLog) :=
  { data := some (List.insertionSort loggedAtLE
      (db.food_logs.filter (matchesUserDate userId date)))
    error := none }

/-- `getFoodLogsByDate`, given the awaited response: throw on error, else
return `data || []`. -/
def getFoodLogsByDate (resp : QueryResult (List FoodLog)) :
    Except String (List FoodLog) :=
  match resp.error with
  | some e => .error e
  | none => .ok (resp.data.getD [])

/-- `getFoodLogsByDate` run against a healthy store. -/
def getFoodLogsByDateRun (db : DB) (userId : String) (date : Nat) :
    Except String (List FoodLog) :=
  getFoodLogsByDate (selectFoodLogsByDate db userId date)

/-- Whether a row matches `eq('user_id', u).gte('date', a).lte('date', b)`. -/
def matchesUserRange (u : String) (startDate endDate : Nat) (r : FoodLog) : Bool :=
  r.user_id == u && startDate ≤ r.date && r.date ≤ endDate

/-- The body of the `reduce` in `getTotalCaloriesInRange`:
`sum + Number(row.calories || 0)`. -/
def caloriesStep (sum : JSNum) (row : FoodLog) : JSNum :=
  jsAdd sum (toNumber (jsOr row.calories (.num (.val 0))))

/-- `(data || []).reduce((sum, row) => sum + Number(row.calories || 0), 0)`. -/
def sumCalories (rows : List FoodLog) : JSNum :=
  rows.foldl caloriesStep (.val 0)

/-- The store's evaluation of the range select for `getTotalCaloriesInRange`. -/
def selectCaloriesInRange (db : DB) (userId : String) (startDate endDate : Nat) :
    QueryResult (List FoodLog) :=
  { data := some (db.food_logs.filter (matchesUserRange userId startDate endDate))
    error := none }

/-- `getTotalCaloriesInRange`, given the awaited response: throw on error,
else reduce the calories of `data || []`. -/
def getTotalCaloriesInRange (resp : QueryResult (List FoodLog)) :
    Except String JSNum :=
  match resp.error with
  | some e => .error e
  | none => .ok (sumCalories (resp.data.getD []))

/-- `getTotalCaloriesInRange` run against a healthy store. -/
def getTotalCaloriesInRangeRun (db : DB) (userId : String)
    (startDate endDate : Nat) : Except String JSNum :=
  getTotalCaloriesInRange (selectCaloriesInRange db userId startDate endDate)

/-! ## getDailyNutritionSummary -/

/-- One row of the nutrition join `select('calories, makanan!inner(...)')`:
the log's calories plus the joined catalog entity (absent when the join
produced nothing for this row). -/
structure NutritionJoinRow where
  calories : JSValue
  makanan : Option MakananRow
deriving DecidableEq, Repr

/-- The summary object `{ protein, carbs, fat }` returned to the caller. -/
structure NutritionSummary where
  protein : JSNum
  carbs : JSNum
  fat : JSNum
deriving DecidableEq, Repr

/-- The zero-valued summary `{ protein: 0, carbs: 0, fat: 0 }`. -/
def zeroSummary : NutritionSummary :=
  { protein := .val 0, carbs := .val 0, fat := .val 0 }

/-- The store's evaluation of the inner join for the nutrition summary:
rows for the user and date whose `food_id` resolves in `makanan`. -/
def selectNutritionJoin (db : DB) (userId : String) (date : Nat) :
    QueryResult (List NutritionJoinRow) :=
  { data := some ((db.food_logs.filter (matchesUserDate userId date)).filterMap
      (fun r => match r.food_id with
        | none => none
        | some fid =>
          match db.makanan.find? (fun m => m.id == fid) with
          | none => none
          | some m => some { calories := r.calories, makanan := some m }))
    error := none }

/-- The accumulation loop of `getDailyNutritionSummary`: skip rows whose
joined `makanan` is falsy, otherwise add `Number(field || 0)` per nutrient. -/
def nutritionStep (acc : NutritionSummary) (row : NutritionJoinRow) :
    NutritionSummary :=
  match row.makanan with
  | none => acc
  | some food =>
    { protein := jsAdd acc.protein (toNumber (jsOr food.proteins (.num (.val 0))))
      carbs := jsAdd acc.carbs (toNumber (jsOr food.carbohydrate (.num (.val 0))))
      fat := jsAdd acc.fat (toNumber (jsOr food.fat (.num (.val 0)))) }

/-- `getDailyNutritionSummary`, given the awaited response.  On a query
error it logs and returns the zero summary; otherwise it folds the rows.
The function is total: it returns a `NutritionSummary` in every case and
never propagates a failure (the source wraps the body in try/catch). -/
def getDailyNutritionSummary (resp : QueryResult (List NutritionJoinRow)) :
    NutritionSummary :=
  match resp.error with
  | some _ => zeroSummary
  | none => (resp.data.getD []).foldl nutritionStep zeroSummary

/-- `getDailyNutritionSummary` run against a healthy store. -/
def getDailyNutritionSummaryRun (db : DB) (userId : String) (date : Nat) :
    NutritionSummary :=
  getDailyNutritionSummary (selectNutritionJoin db userId date)

/-! ## users operations -/

/-- The store operations `syncFirebaseUser` may issue, in order, so the
theorems can state that no data-store call happened on early failure. -/
inductive StoreOp where
  | selectUsers : StoreOp
  | insertUsers : StoreOp
deriving DecidableEq, Repr

/-- `username || (email ? email.split('@')[0] : null)`: a falsy `username`
falls back to the part of the email before the first `@`; a falsy `email`
yields `null`. -/
def effectiveUsername (username email : Option String) : Option String :=
  if optStrFalsy username then
    if optStrFalsy email then none
    else some (emailLocalPart (email.getD ""))
  else username

/-- `syncFirebaseUser({ firebase_uid, email, username })` over the store
state.  Returns the result, the final store state, and the list of store
calls issued.  Throws `firebase_uid is required` before any store call when
`firebase_uid` is falsy; returns the existing row's id on a lookup hit;
otherwise inserts a new row (the store assigns `nextUserId`). -/
def syncFirebaseUser (db : DB) (firebase_uid email username : Option String) :
    Except String Nat × DB × List StoreOp :=
  if optStrFalsy firebase_uid then
    (.error "firebase_uid is required", db, [])
  else
    let uid := firebase_uid.getD ""
    match db.users.find? (fun u => u.firebase_uid == uid) with
    | some existing => (.ok existing.id, db, [.selectUsers])
    | none =>
      let newRow : UserRow :=
        { id := db.nextUserId
          firebase_uid := uid
          email := email
          username := effectiveUsername username email
          daily_calorie_target := .null }
      (.ok db.nextUserId,
       { db with users := db.users ++ [newRow], nextUserId := db.nextUserId + 1 },
       [.selectUsers, .insertUsers])

/-- The store's evaluation of the `maybeSingle` user lookup by id: `data`
is the row when present, `null` otherwise; a healthy store reports no error. -/
def selectUserById (db : DB) (userId : Nat) : QueryResult UserRow :=
  { data := db.users.find? (fun u => u.id == userId), error := none }

/-- `v ?? null`: nullish values collapse to `null`. -/
def jsNullish (v : JSValue) : JSValue :=
  match v with
  | .null => .null
  | .undefined => .null
  | v => v

/-- `getUserDailyCalorieTarget`, given the awaited `maybeSingle` response:
throw on error, else `data?.daily_calorie_target ?? null`. -/
def getUserDailyCalorieTarget (resp : QueryResult UserRow) :
    Except String JSValue :=
  match resp.error with
  | some e => .error e
  | none =>
    match resp.data with
    | none => .ok .null
    | some u => .ok (jsNullish u.daily_calorie_target)

/-- `getUserDailyCalorieTarget` run against a healthy store. -/
def getUserDailyCalorieTargetRun (db : DB) (userId : Nat) :
    Except String JSValue :=
  getUserDailyCalorieTarget (selectUserById db userId)

/-- `target == null ? null : Number(target)`: JavaScript loose equality with
`null` holds exactly for `null` and `undefined`. -/
def normalizeTarget (target : JSValue) : JSValue :=
  if target = .null ∨ target = .undefined then .null
  else .num (toNumber target)

/-- `updateUserDailyCalorieTarget(userId, target)` over the store state:
normalize the target, update every `users` row matching the id, and return
the normalized value together with the final store state. -/
def updateUserDailyCalorieTarget (db : DB) (userId : Nat) (target : JSValue) :
    Except String JSValue × DB :=
  let value := normalizeTarget target
  (.ok value,
   { db with users := db.users.map (fun u =>
       if u.id == userId then { u with daily_calorie_target := value } else u) })

/-! ## requireAuth middleware -/

/-- The decoded identity payload attached to the request on success. -/
structure DecodedToken where
  uid : String
deriving DecidableEq, Repr

/-- The observable outcome of the middleware: a 401 response with its
message, or the request forwarded with the decoded identity attached. -/
inductive AuthResult where
  | unauthorized : Nat → String → AuthResult
  | authorized : DecodedToken → AuthResult
deriving DecidableEq, Repr

/-- `requireAuth(req, res, next)`, with the request reduced to its
`Authorization` header and the identity-verification service passed as a
function.  The second component records the tokens passed to
`verifyIdToken`, so the theorems can state that verification was not
invoked.  Mirrors the source: `authHeader = req.headers.authorization || ''`;
`token = authHeader.startsWith('Bearer ') ? authHeader.slice(7) : null`;
`if (!token)` respond 401 missing token; else verify, attach on success,
respond 401 invalid token on failure. -/
def requireAuth (authorization : Option String)
    (verifyIdToken : String → Except String DecodedToken) :
    AuthResult × List String :=
  let authHeader := authorization.getD ""
  let token : Option String :=
    if strBeginsWith authHeader "Bearer " then some (strSlice authHeader 7) else none
  if optStrFalsy token then
    (.unauthorized 401 "Unauthorized: missing token", [])
  else
    let t := token.getD ""
    match verifyIdToken t with
    | .ok decoded => (.authorized decoded, [t])
    | .error _ => (.unauthorized 401 "Unauthorized: invalid token", [t])

/-! ## Algebraic facts about the JavaScript number model -/

theorem jsAdd_comm (a b : JSNum) : jsAdd a b = jsAdd b a := by
  cases a <;> cases b <;> simp [jsAdd, Int.add_comm]

theorem jsAdd_assoc (a b c : JSNum) : jsAdd (jsAdd a b) c = jsAdd a (jsAdd b c) := by
  cases a <;> cases b <;> cases c <;> simp [jsAdd, Int.add_assoc]

theorem jsAdd_zero_left (a : JSNum) : jsAdd (.val 0) a = a := by
  cases a <;> simp [jsAdd]

theorem jsAdd_zero_right (a : JSNum) : jsAdd a (.val 0) = a := by
  cases a <;> simp [jsAdd]

theorem jsAdd_nan_left (a : JSNum) : jsAdd .nan a = .nan := by
  cases a <;> rfl

theorem jsAdd_left_comm (a b c : JSNum) :
    jsAdd a (jsAdd b c) = jsAdd b (jsAdd a c) := by
  rw [← jsAdd_assoc, jsAdd_comm a b, jsAdd_assoc]

/-- The per-row contribution inside the `reduce` of `getTotalCaloriesInRange`:
`Number(row.calories || 0)`. -/
def rowContribution (r : FoodLog) : JSNum :=
  toNumber (jsOr r.calories (.num (.val 0)))

theorem caloriesStep_eq (s : JSNum) (r : FoodLog) :
    caloriesStep s r = jsAdd s (rowContribution r) := rfl

theorem foldl_caloriesStep (l : List FoodLog) (s : JSNum) :
    l.foldl caloriesStep s = jsAdd s (sumCalories l) := by
  induction l generalizing s with
  | nil => simp [sumCalories, jsAdd_zero_right]
  | cons r l ih =>
    show l.foldl caloriesStep (caloriesStep s r) = jsAdd s (sumCalories (r :: l))
    have hrhs : sumCalories (r :: l) = jsAdd (rowContribution r) (sumCalories l) := by
      show l.foldl caloriesStep (caloriesStep (.val 0) r)
          = jsAdd (rowContribution r) (sumCalories l)
      rw [ih, caloriesStep_eq, jsAdd_zero_left]
    rw [ih, caloriesStep_eq, hrhs, jsAdd_assoc]

theorem sumCalories_cons (r : FoodLog) (l : List FoodLog) :
    sumCalories (r :: l) = jsAdd (rowContribution r) (sumCalories l) := by
  show l.foldl caloriesStep (caloriesStep (.val 0) r)
      = jsAdd (rowContribution r) (sumCalories l)
  rw [foldl_caloriesStep, caloriesStep_eq, jsAdd_zero_left]

/-- Calorie sums over filters by disjoint predicates combine into the sum
over the disjunction of the predicates. -/
theorem sumCalories_filter_disjoint (p q : FoodLog → Bool) (l : List FoodLog)
    (hdisj : ∀ r, p r = true → q r = false) :
    jsAdd (sumCalories (l.filter p)) (sumCalories (l.filter q))
      = sumCalories (l.filter (fun r => p r || q r)) := by
  induction l with
  | nil => simp [sumCalories, jsAdd]
  | cons r l ih =>
    by_cases hp : p r = true
    · have hq : q r = false := hdisj r hp
      simp only [List.filter_cons, hp, hq, Bool.true_or, if_true, if_false,
        Bool.false_eq_true, sumCalories_cons]
      rw [jsAdd_assoc, ih]
    · have hp' : p r = false := by
        cases hpe : p r
        · rfl
        · exact absurd hpe hp
      by_cases hq : q r = true
      · simp only [List.filter_cons, hp', hq, Bool.false_or, if_true, if_false,
          Bool.false_eq_true, sumCalories_cons]
        rw [jsAdd_left_comm, ih]
      · have hq' : q r = false := by
          cases hqe : q r
          · rfl
          · exact absurd hqe hq
        simp only [List.filter_cons, hp', hq', Bool.false_or, if_false,
          Bool.false_eq_true]
        exact ih

/-! ## IEEE-754 refinement of the calorie sum

JavaScript numbers are IEEE-754 doubles: integer arithmetic is exact only
up to 2^53, beyond which every operation rounds its exact result to the
nearest representable double, ties to an even mantissa.  The definitions
below refine the calorie-sum embedding with that rounding, restricted to
integer-valued doubles (the only values the exact embedding can hold): an
integer of magnitude in `(2^(52+e), 2^(53+e)]` is representable exactly
when it is a multiple of the spacing `2^e`. -/

/-- Smallest scale `e` (at least the given accumulator) with
`n ≤ 2^(53+e)`.  The fuel bound 1100 exceeds the double exponent range, so
it is never exhausted for magnitudes a double can hold. -/
def findScale (n : Nat) : Nat → Nat → Nat
  | 0, e => e
  | fuel + 1, e => if n ≤ 2 ^ (53 + e) then e else findScale n fuel (e + 1)

/-- Round a magnitude to the nearest integer-valued double: magnitudes up
to 2^53 are exactly representable; beyond, round to the nearest multiple of
the spacing `2^e`, breaking ties towards an even mantissa. -/
def roundMantissa (n : Nat) : Nat :=
  if n ≤ 2 ^ 53 then n
  else
    let e := findScale n 1100 0
    let s := 2 ^ e
    let q := n / s
    let r := n % s
    let half := s / 2
    if half < r ∨ (r = half ∧ q % 2 = 1) then (q + 1) * s else q * s

/-- Round an integer to the nearest double; IEEE-754 rounding is symmetric
in the sign. -/
def roundDouble (i : Int) : Int :=
  if i < 0 then -(roundMantissa i.natAbs : Int) else (roundMantissa i.natAbs : Int)

/-- JavaScript `+` on numbers as IEEE-754 double addition of integer-valued
doubles: NaN is absorbing, and the exact sum is rounded to the nearest
representable double. -/
def jsAddD : JSNum → JSNum → JSNum
  | .nan, _ => .nan
  | _, .nan => .nan
  | .val a, .val b => .val (roundDouble (a + b))

/-- The body of the `reduce` in `getTotalCaloriesInRange` under double
addition: `sum + Number(row.calories || 0)`. -/
def caloriesStepD (sum : JSNum) (row : FoodLog) : JSNum :=
  jsAddD sum (rowContribution row)

/-- The `reduce` of `getTotalCaloriesInRange` under double addition. -/
def sumCaloriesD (rows : List FoodLog) : JSNum :=
  rows.foldl caloriesStepD (.val 0)

/-- `getTotalCaloriesInRange` under double addition, given the awaited
response. -/
def getTotalCaloriesInRangeD (resp : QueryResult (List FoodLog)) :
    Except String JSNum :=
  match resp.error with
  | some e => .error e
  | none => .ok (sumCaloriesD (resp.data.getD []))

/-- `getTotalCaloriesInRange` under double addition, run against a healthy
store. -/
def getTotalCaloriesInRangeRunD (db : DB) (userId : String)
    (startDate endDate : Nat) : Except String JSNum :=
  getTotalCaloriesInRangeD (selectCaloriesInRange db userId startDate endDate)

theorem roundMantissa_of_le (n : Nat) (h : n ≤ 2 ^ 53) :
    roundMantissa n = n := by
  unfold roundMantissa
  rw [if_pos h]

theorem roundDouble_natCast_of_le (t : Nat) (h : t ≤ 2 ^ 53) :
    roundDouble (t : Int) = (t : Int) := by
  unfold roundDouble
  rw [if_neg (by omega), Int.natAbs_ofNat, roundMantissa_of_le t h]

theorem jsAddD_natCast (s k : Nat) (h : s + k ≤ 2 ^ 53) :
    jsAddD (.val (s : Int)) (.val (k : Int)) = .val ((s + k : Nat) : Int) := by
  show JSNum.val (roundDouble ((s : Int) + (k : Int)))
      = JSNum.val ((s + k : Nat) : Int)
  rw [← Nat.cast_add, roundDouble_natCast_of_le _ h]

/-- When every contribution is a nonnegative integer, the exact calorie sum
is a nonnegative integer. -/
theorem sumCalories_natContribs (l : List FoodLog)
    (h : ∀ r ∈ l, ∃ k : Nat, rowContribution r = .val (k : Int)) :
    ∃ t : Nat, sumCalories l = .val (t : Int) := by
  induction l with
  | nil => exact ⟨0, rfl⟩
  | cons r l ih =>
    obtain ⟨k, hk⟩ := h r (List.mem_cons_self r l)
    obtain ⟨t, ht⟩ := ih (fun r hr => h r (List.mem_cons_of_mem _ hr))
    refine ⟨k + t, ?_⟩
    rw [sumCalories_cons, hk, ht]
    show JSNum.val ((k : Int) + (t : Int)) = JSNum.val ((k + t : Nat) : Int)
    rw [← Nat.cast_add]

/-- The exact calorie sums over the adjacent ranges `[a,b]` and `[b+1,c]`
combine into the exact sum over `[a,c]` when `a ≤ b < c`. -/
theorem sumCalories_range_split (l : List FoodLog) (u : String) (a b c : Nat)
    (hab : a ≤ b) (hbc : b < c) :
    jsAdd (sumCalories (l.filter (matchesUserRange u a b)))
        (sumCalories (l.filter (matchesUserRange u (b + 1) c)))
      = sumCalories (l.filter (matchesUserRange u a c)) := by
  have hdisj : ∀ r, matchesUserRange u a b r = true →
      matchesUserRange u (b + 1) c r = false := by
    intro r h
    simp only [matchesUserRange, Bool.and_eq_true, decide_eq_true_eq] at h
    rw [Bool.eq_false_iff]
    simp only [matchesUserRange, Ne, Bool.and_eq_true, decide_eq_true_eq, not_and]
    intro h1
    omega
  have hsplit : ∀ r ∈ l,
      (matchesUserRange u a b r || matchesUserRange u (b + 1) c r)
        = matchesUserRange u a c r := by
    intro r _
    simp only [matchesUserRange]
    cases hu : r.user_id == u
    · simp
    · simp only [Bool.true_and]
      rw [Bool.eq_iff_iff]
      simp only [Bool.or_eq_true, Bool.and_eq_true, decide_eq_true_eq]
      omega
  rw [sumCalories_filter_disjoint _ _ _ hdisj, List.filter_congr hsplit]

theorem matchesUserRange_mono_left {u : String} {a b c : Nat} (hbc : b ≤ c)
    {r : FoodLog} (h : matchesUserRange u a b r = true) :
    matchesUserRange u a c r = true := by
  simp only [matchesUserRange, Bool.and_eq_true, decide_eq_true_eq] at h ⊢
  exact ⟨h.1, le_trans h.2 hbc⟩

theorem matchesUserRange_mono_right {u : String} {a b c : Nat} (hab : a ≤ b)
    {r : FoodLog} (h : matchesUserRange u b c r = true) :
    matchesUserRange u a c r = true := by
  simp only [matchesUserRange, Bool.and_eq_true, decide_eq_true_eq] at h ⊢
  exact ⟨⟨h.1.1, le_trans hab h.1.2⟩, h.2⟩

/-- As long as every contribution is a nonnegative integer and the exact
total from the starting accumulator fits in 2^53, every intermediate sum is
exactly representable, so the double fold agrees with the exact fold. -/
theorem foldl_caloriesStepD_exact (l : List FoodLog)
    (h : ∀ r ∈ l, ∃ k : Nat, rowContribution r = .val (k : Int))
    (s t : Nat)
    (hsum : l.foldl caloriesStep (.val (s : Int)) = .val (t : Int))
    (hb : t ≤ 2 ^ 53) :
    l.foldl caloriesStepD (.val (s : Int)) = .val (t : Int) := by
  induction l generalizing s with
  | nil => exact hsum
  | cons r l ih =>
    obtain ⟨k, hk⟩ := h r (List.mem_cons_self r l)
    have hstep : caloriesStep (.val (s : Int)) r = .val ((s + k : Nat) : Int) := by
      rw [caloriesStep_eq, hk]
      show JSNum.val ((s : Int) + (k : Int)) = JSNum.val ((s + k : Nat) : Int)
      rw [← Nat.cast_add]
    rw [List.foldl_cons, hstep] at hsum
    obtain ⟨σ, hσ⟩ := sumCalories_natContribs l
      (fun r hr => h r (List.mem_cons_of_mem _ hr))
    have htail : l.foldl caloriesStep (.val ((s + k : Nat) : Int))
        = .val (((s + k) + σ : Nat) : Int) := by
      rw [foldl_caloriesStep, hσ]
      show JSNum.val (((s + k : Nat) : Int) + (σ : Int))
          = JSNum.val (((s + k) + σ : Nat) : Int)
      rw [← Nat.cast_add]
    have hteq : (s + k) + σ = t := by
      rw [htail] at hsum
      have := JSNum.val.inj hsum
      exact_mod_cast this
    have hsk : s + k ≤ 2 ^ 53 := by omega
    have hstepD : caloriesStepD (.val (s : Int)) r = .val ((s + k : Nat) : Int) := by
      show jsAddD (.val (s : Int)) (rowContribution r) = .val ((s + k : Nat) : Int)
      rw [hk]
      exact jsAddD_natCast s k hsk
    rw [List.foldl_cons, hstepD]
    exact ih (fun r hr => h r (List.mem_cons_of_mem _ hr)) (s + k) hsum

/-- The double-addition calorie sum agrees with the exact one when all
contributions are nonnegative integers and the exact total is at most
2^53. -/
theorem sumCaloriesD_exact (l : List FoodLog)
    (h : ∀ r ∈ l, ∃ k : Nat, rowContribution r = .val (k : Int))
    (t : Nat) (ht : sumCalories l = .val (t : Int)) (hb : t ≤ 2 ^ 53) :
    sumCaloriesD l = .val (t : Int) :=
  foldl_caloriesStepD_exact l h 0 t ht hb

/-! ## Claim theorems -/

/-- C1: `getDailyNutritionSummary` never throws — its result type is a plain
`NutritionSummary` — and whenever the underlying query reports an error it
returns the zero-valued summary `{protein: 0, carbs: 0, fat: 0}` instead of
propagating the failure. -/
theorem nutritionSummary_error_yields_zero
    (resp : QueryResult (List NutritionJoinRow)) (e : String)
    (h : resp.error = some e) :
    getDailyNutritionSummary resp = zeroSummary := by
  unfold getDailyNutritionSummary
  rw [h]

theorem nutritionSummary_error_yields_zero_witness :
    (QueryResult.mk (α := List NutritionJoinRow) none (some "boom")).error
        = some "boom" ∧
      getDailyNutritionSummary ⟨none, some "boom"⟩ = zeroSummary :=
  ⟨rfl, nutritionSummary_error_yields_zero ⟨none, some "boom"⟩ "boom" rfl⟩

/-- C2: whenever the `Authorization` header is absent, or present but not
beginning with `"Bearer "`, `requireAuth` responds 401 with message
`Unauthorized: missing token` and passes no token to the
identity-verification service. -/
theorem requireAuth_missing_header_401
    (auth : Option String) (verify : String → Except String DecodedToken)
    (h : auth = none ∨ strBeginsWith (auth.getD "") "Bearer " = false) :
    requireAuth auth verify =
      (.unauthorized 401 "Unauthorized: missing token", []) := by
  have hb : strBeginsWith (auth.getD "") "Bearer " = false := by
    rcases h with h | h
    · subst h; rfl
    · exact h
  simp [requireAuth, hb, optStrFalsy]

theorem requireAuth_missing_header_401_witness :
    ((some "Token abc" : Option String) = none ∨
        strBeginsWith ((some "Token abc" : Option String).getD "") "Bearer "
          = false) ∧
      requireAuth (some "Token abc") (fun t => .ok ⟨t⟩) =
        (.unauthorized 401 "Unauthorized: missing token", []) :=
  ⟨Or.inr rfl,
   requireAuth_missing_header_401 (some "Token abc") (fun t => .ok ⟨t⟩)
     (Or.inr rfl)⟩

/-- C10: a header that is exactly `"Bearer "` (the `Bearer` scheme with an
empty token) is classified as a missing token: `requireAuth` responds 401
with `Unauthorized: missing token` and never calls the verification service,
because the sliced-off token is the empty string, which is falsy. -/
theorem requireAuth_empty_bearer_token_401
    (verify : String → Except String DecodedToken) :
    requireAuth (some "Bearer ") verify =
      (.unauthorized 401 "Unauthorized: missing token", []) := rfl

theorem requireAuth_empty_bearer_token_401_witness :
    requireAuth (some "Bearer ") (fun t => .ok ⟨t⟩) =
      (.unauthorized 401 "Unauthorized: missing token", []) :=
  requireAuth_empty_bearer_token_401 (fun t => .ok ⟨t⟩)

/-- C3: when `firebase_uid` is absent or the empty string, `syncFirebaseUser`
fails with the validation error `firebase_uid is required`, issues no store
operation, and leaves the store state (in particular the `users` table)
unchanged. -/
theorem syncFirebaseUser_falsy_uid_validation
    (db : DB) (uid email username : Option String)
    (h : optStrFalsy uid = true) :
    syncFirebaseUser db uid email username =
      (.error "firebase_uid is required", db, []) := by
  unfold syncFirebaseUser
  rw [h]
  rfl

theorem syncFirebaseUser_falsy_uid_validation_witness :
    optStrFalsy none = true ∧
      syncFirebaseUser ⟨[], [⟨1, "u1", none, none, .null⟩], [], 2⟩ none
          (some "a@b.com") none =
        (.error "firebase_uid is required",
          ⟨[], [⟨1, "u1", none, none, .null⟩], [], 2⟩, []) :=
  ⟨rfl,
   syncFirebaseUser_falsy_uid_validation
     ⟨[], [⟨1, "u1", none, none, .null⟩], [], 2⟩ none (some "a@b.com") none rfl⟩

/-- C4 counterexample: a row whose `calories` is the non-numeric string
`"abc"` does not contribute 0 — `Number("abc" || 0)` is NaN, so the whole
total is NaN rather than 0. -/
theorem totalCalories_nonNumeric_counterexample :
    getTotalCaloriesInRangeRun
        ⟨[⟨1, "u", 5, .null, .str "abc", none, 0⟩], [], [], 1⟩ "u" 5 5
      = .ok .nan ∧ JSNum.nan ≠ JSNum.val 0 :=
  ⟨rfl, by decide⟩

/-- C4 (amended): `getTotalCaloriesInRange` treats falsy `calories` as 0 —
in particular a row with `calories = null` contributes 0 to the total — but
a matching row whose `calories` is a truthy non-numeric string coerces to
NaN and makes the entire total NaN instead of contributing 0. -/
theorem totalCalories_null_zero_nonNumeric_nan
    (db : DB) (u : String) (a b : Nat) (r : FoodLog) :
    (r.calories = .null →
      getTotalCaloriesInRangeRun { db with food_logs := r :: db.food_logs } u a b
        = getTotalCaloriesInRangeRun db u a b) ∧
    (∀ s, r.calories = .str s → parseJSNumber s = .nan →
      matchesUserRange u a b r = true →
      getTotalCaloriesInRangeRun { db with food_logs := r :: db.food_logs } u a b
        = .ok .nan) := by
  constructor
  · intro hnull
    show Except.ok (sumCalories (List.filter (matchesUserRange u a b)
          (r :: db.food_logs)))
        = Except.ok (sumCalories (List.filter (matchesUserRange u a b)
          db.food_logs))
    cases hm : matchesUserRange u a b r with
    | false => rw [List.filter_cons_of_neg (by simp [hm])]
    | true =>
      rw [List.filter_cons_of_pos (by simp [hm]), sumCalories_cons]
      have hc : rowContribution r = .val 0 := by
        rw [rowContribution, hnull]
        rfl
      rw [hc, jsAdd_zero_left]
  · intro s hstr hnan hm
    show Except.ok (sumCalories (List.filter (matchesUserRange u a b)
          (r :: db.food_logs)))
        = Except.ok JSNum.nan
    have hsne : jsFalsy (.str s) = false := by
      cases hf : jsFalsy (.str s)
      · rfl
      · exfalso
        have hs : s = "" := by
          simpa [jsFalsy] using hf
        rw [hs] at hnan
        simp [parseJSNumber] at hnan
    have hc : rowContribution r = .nan := by
      rw [rowContribution, hstr, jsOr, hsne]
      simpa [toNumber] using hnan
    rw [List.filter_cons_of_pos (by simp [hm]), sumCalories_cons, hc,
      jsAdd_nan_left]

theorem totalCalories_null_zero_nonNumeric_nan_witness :
    (getTotalCaloriesInRangeRun
        ⟨[⟨2, "u", 5, .null, .null, none, 0⟩,
          ⟨1, "u", 5, .null, .num (.val 9), none, 0⟩], [], [], 1⟩ "u" 5 5
      = getTotalCaloriesInRangeRun
        ⟨[⟨1, "u", 5, .null, .num (.val 9), none, 0⟩], [], [], 1⟩ "u" 5 5) ∧
    getTotalCaloriesInRangeRun
        ⟨[⟨2, "u", 5, .null, .str "oops", none, 0⟩,
          ⟨1, "u", 5, .null, .num (.val 9), none, 0⟩], [], [], 1⟩ "u" 5 5
      = .ok .nan :=
  ⟨(totalCalories_null_zero_nonNumeric_nan
      ⟨[⟨1, "u", 5, .null, .num (.val 9), none, 0⟩], [], [], 1⟩ "u" 5 5
      ⟨2, "u", 5, .null, .null, none, 0⟩).1 rfl,
   (totalCalories_null_zero_nonNumeric_nan
      ⟨[⟨1, "u", 5, .null, .num (.val 9), none, 0⟩], [], [], 1⟩ "u" 5 5
      ⟨2, "u", 5, .null, .str "oops", none, 0⟩).2 "oops" rfl rfl rfl⟩

/-- C5 counterexample: under IEEE-754 double addition the program is not
additive over adjacent ranges for every fixed store state.  With calories
2^53 = 9007199254740992, 1 and 1 on dates 1, 2 and 3, the totals over
`[1,1]` and `[2,3]` are 2^53 and 2, but the fold over `[1,3]` computes
`(2^53 + 1) + 1`, where each `+ 1` rounds back to 2^53 (a tie, resolved to
the even mantissa), so combining the sub-range totals gives 2^53 + 2 while
the full-range total is 2^53. -/
theorem totalCalories_additive_counterexample :
    getTotalCaloriesInRangeRunD
        ⟨[⟨1, "u", 1, .null, .num (.val 9007199254740992), none, 0⟩,
          ⟨2, "u", 2, .null, .num (.val 1), none, 0⟩,
          ⟨3, "u", 3, .null, .num (.val 1), none, 0⟩], [], [], 1⟩ "u" 1 1
      = .ok (.val 9007199254740992) ∧
    getTotalCaloriesInRangeRunD
        ⟨[⟨1, "u", 1, .null, .num (.val 9007199254740992), none, 0⟩,
          ⟨2, "u", 2, .null, .num (.val 1), none, 0⟩,
          ⟨3, "u", 3, .null, .num (.val 1), none, 0⟩], [], [], 1⟩ "u" (1 + 1) 3
      = .ok (.val 2) ∧
    getTotalCaloriesInRangeRunD
        ⟨[⟨1, "u", 1, .null, .num (.val 9007199254740992), none, 0⟩,
          ⟨2, "u", 2, .null, .num (.val 1), none, 0⟩,
          ⟨3, "u", 3, .null, .num (.val 1), none, 0⟩], [], [], 1⟩ "u" 1 3
      = .ok (.val 9007199254740992) ∧
    jsAddD (.val 9007199254740992) (.val 2) ≠ .val 9007199254740992 :=
  ⟨rfl, rfl, rfl, by decide⟩

/-- C5 (amended): under IEEE-754 double addition, `getTotalCaloriesInRange`
is additive over the adjacent ranges `[a, b]` and `[b+1, c]` (`a ≤ b < c`)
whenever every matching row's calories contribution is a nonnegative
integer and the exact total over `[a, c]` is at most 2^53, so that no
intermediate sum is rounded; in general rounding breaks additivity, as the
counterexample with calories 2^53, 1, 1 shows. -/
theorem totalCalories_additive_adjacent_safe
    (db : DB) (u : String) (a b c : Nat) (hab : a ≤ b) (hbc : b < c)
    (hvals : ∀ r ∈ db.food_logs, matchesUserRange u a c r = true →
      ∃ k : Nat, rowContribution r = .val (k : Int))
    (t : Nat)
    (htot : sumCalories (db.food_logs.filter (matchesUserRange u a c))
      = .val (t : Int))
    (hb53 : t ≤ 2 ^ 53)
    (x y : JSNum)
    (hx : getTotalCaloriesInRangeRunD db u a b = .ok x)
    (hy : getTotalCaloriesInRangeRunD db u (b + 1) c = .ok y) :
    getTotalCaloriesInRangeRunD db u a c = .ok (jsAddD x y) := by
  have hsub_ab : ∀ r ∈ db.food_logs.filter (matchesUserRange u a b),
      ∃ k : Nat, rowContribution r = .val (k : Int) := by
    intro r hr
    have hm := List.mem_filter.mp hr
    exact hvals r hm.1 (matchesUserRange_mono_left (le_of_lt hbc) hm.2)
  have hsub_bc : ∀ r ∈ db.food_logs.filter (matchesUserRange u (b + 1) c),
      ∃ k : Nat, rowContribution r = .val (k : Int) := by
    intro r hr
    have hm := List.mem_filter.mp hr
    exact hvals r hm.1 (matchesUserRange_mono_right (by omega) hm.2)
  have hsub_ac : ∀ r ∈ db.food_logs.filter (matchesUserRange u a c),
      ∃ k : Nat, rowContribution r = .val (k : Int) := fun r hr =>
    hvals r (List.mem_filter.mp hr).1 (List.mem_filter.mp hr).2
  obtain ⟨t1, ht1⟩ := sumCalories_natContribs _ hsub_ab
  obtain ⟨t2, ht2⟩ := sumCalories_natContribs _ hsub_bc
  have hsum12 : t1 + t2 = t := by
    have hs := sumCalories_range_split db.food_logs u a b c hab hbc
    rw [ht1, ht2, htot] at hs
    have hs2 : ((t1 : Int) + (t2 : Int)) = (t : Int) := JSNum.val.inj hs
    exact_mod_cast hs2
  have hx0 : getTotalCaloriesInRangeRunD db u a b
      = .ok (sumCaloriesD (db.food_logs.filter (matchesUserRange u a b))) := rfl
  have hy0 : getTotalCaloriesInRangeRunD db u (b + 1) c
      = .ok (sumCaloriesD (db.food_logs.filter (matchesUserRange u (b + 1) c))) :=
    rfl
  rw [hx0] at hx
  rw [hy0] at hy
  have hx1 := Except.ok.inj hx
  have hy1 := Except.ok.inj hy
  have hDab : sumCaloriesD (db.food_logs.filter (matchesUserRange u a b))
      = .val (t1 : Int) :=
    sumCaloriesD_exact _ hsub_ab t1 ht1 (by omega)
  have hDbc : sumCaloriesD (db.food_logs.filter (matchesUserRange u (b + 1) c))
      = .val (t2 : Int) :=
    sumCaloriesD_exact _ hsub_bc t2 ht2 (by omega)
  have hDac : sumCaloriesD (db.food_logs.filter (matchesUserRange u a c))
      = .val (t : Int) :=
    sumCaloriesD_exact _ hsub_ac t htot hb53
  show Except.ok (sumCaloriesD (db.food_logs.filter (matchesUserRange u a c)))
      = .ok (jsAddD x y)
  rw [hDac, ← hx1, ← hy1, hDab, hDbc, jsAddD_natCast t1 t2 (by omega), hsum12]

theorem totalCalories_additive_adjacent_safe_witness :
    1 ≤ 2 ∧ 2 < 4 ∧
      (∀ r ∈ [(⟨1, "u", 2, .null, .num (.val 7), none, 0⟩ : FoodLog),
          ⟨2, "u", 3, .null, .num (.val 5), none, 0⟩],
        matchesUserRange "u" 1 4 r = true →
          ∃ k : Nat, rowContribution r = .val (k : Int)) ∧
      sumCalories (List.filter (matchesUserRange "u" 1 4)
          [⟨1, "u", 2, .null, .num (.val 7), none, 0⟩,
           ⟨2, "u", 3, .null, .num (.val 5), none, 0⟩])
        = .val ((12 : Nat) : Int) ∧
      (12 : Nat) ≤ 2 ^ 53 ∧
      getTotalCaloriesInRangeRunD
          ⟨[⟨1, "u", 2, .null, .num (.val 7), none, 0⟩,
            ⟨2, "u", 3, .null, .num (.val 5), none, 0⟩], [], [], 1⟩ "u" 1 2
        = .ok (.val 7) ∧
      getTotalCaloriesInRangeRunD
          ⟨[⟨1, "u", 2, .null, .num (.val 7), none, 0⟩,
            ⟨2, "u", 3, .null, .num (.val 5), none, 0⟩], [], [], 1⟩ "u" (2 + 1) 4
        = .ok (.val 5) ∧
      getTotalCaloriesInRangeRunD
          ⟨[⟨1, "u", 2, .null, .num (.val 7), none, 0⟩,
            ⟨2, "u", 3, .null, .num (.val 5), none, 0⟩], [], [], 1⟩ "u" 1 4
        = .ok (jsAddD (.val 7) (.val 5)) := by
  have hv : ∀ r ∈ [(⟨1, "u", 2, .null, .num (.val 7), none, 0⟩ : FoodLog),
      ⟨2, "u", 3, .null, .num (.val 5), none, 0⟩],
      matchesUserRange "u" 1 4 r = true →
        ∃ k : Nat, rowContribution r = .val (k : Int) := by
    intro r hr _
    simp only [List.mem_cons, List.not_mem_nil, or_false] at hr
    rcases hr with rfl | rfl
    · exact ⟨7, rfl⟩
    · exact ⟨5, rfl⟩
  exact ⟨by decide, by decide, hv, rfl, by decide, rfl, rfl,
    totalCalories_additive_adjacent_safe
      ⟨[⟨1, "u", 2, .null, .num (.val 7), none, 0⟩,
        ⟨2, "u", 3, .null, .num (.val 5), none, 0⟩], [], [], 1⟩ "u" 1 2 4
      (by decide) (by decide) hv 12 rfl (by decide) (.val 7) (.val 5) rfl rfl⟩

/-- C6: `getFoodLogsByDate` succeeds with the matching rows in
non-decreasing `logged_at` order (a permutation of the filtered table), and
yields the empty list — not an error — when no row matches. -/
theorem foodLogsByDate_sorted_or_empty (db : DB) (u : String) (d : Nat) :
    ∃ l, getFoodLogsByDateRun db u d = .ok l ∧
      List.Sorted loggedAtLE l ∧
      l.Perm (db.food_logs.filter (matchesUserDate u d)) ∧
      ((∀ r ∈ db.food_logs, matchesUserDate u d r = false) → l = []) := by
  refine ⟨_, rfl, List.sorted_insertionSort loggedAtLE _,
    List.perm_insertionSort loggedAtLE _, ?_⟩
  intro h
  have hf : db.food_logs.filter (matchesUserDate u d) = [] :=
    List.filter_eq_nil_iff.mpr (fun r hr => by simp [h r hr])
  show List.insertionSort loggedAtLE (db.food_logs.filter (matchesUserDate u d))
      = []
  rw [hf]
  rfl

theorem foodLogsByDate_sorted_or_empty_witness :
    ∃ l, getFoodLogsByDateRun
          ⟨[⟨1, "u", 5, .null, .null, none, 9⟩,
            ⟨2, "u", 5, .null, .null, none, 3⟩], [], [], 1⟩ "u" 5 = .ok l ∧
      List.Sorted loggedAtLE l ∧
      l.Perm (List.filter (matchesUserDate "u" 5)
        [⟨1, "u", 5, .null, .null, none, 9⟩,
         ⟨2, "u", 5, .null, .null, none, 3⟩]) ∧
      ((∀ r ∈ [(⟨1, "u", 5, .null, .null, none, 9⟩ : FoodLog),
          ⟨2, "u", 5, .null, .null, none, 3⟩],
          matchesUserDate "u" 5 r = false) → l = []) :=
  foodLogsByDate_sorted_or_empty
    ⟨[⟨1, "u", 5, .null, .null, none, 9⟩,
      ⟨2, "u", 5, .null, .null, none, 3⟩], [], [], 1⟩ "u" 5

/-- C7: when `firebase_uid` is present (truthy), no existing row matches it,
`username` is absent (falsy) and `email` is provided (truthy), the inserted
user's `username` is the email's local part — the characters before the
`@`. -/
theorem syncFirebaseUser_username_from_email
    (db : DB) (uid e : String) (username : Option String)
    (huid : optStrFalsy (some uid) = false)
    (he : optStrFalsy (some e) = false)
    (huser : optStrFalsy username = true)
    (hnone : db.users.find? (fun u => u.firebase_uid == uid) = none) :
    syncFirebaseUser db (some uid) (some e) username =
      (.ok db.nextUserId,
       { db with
           users := db.users ++
             [{ id := db.nextUserId, firebase_uid := uid, email := some e,
                username := some (emailLocalPart e),
                daily_calorie_target := .null }],
           nextUserId := db.nextUserId + 1 },
       [.selectUsers, .insertUsers]) := by
  unfold syncFirebaseUser
  rw [huid]
  simp only [Bool.false_eq_true, if_false, Option.getD_some, hnone]
  rw [effectiveUsername, huser, he]
  rfl

theorem syncFirebaseUser_username_from_email_witness :
    optStrFalsy (some "fb-1") = false ∧
      optStrFalsy (some "x@y.com") = false ∧
      optStrFalsy (none : Option String) = true ∧
      ([] : List UserRow).find? (fun u => u.firebase_uid == "fb-1") = none ∧
      syncFirebaseUser ⟨[], [], [], 1⟩ (some "fb-1") (some "x@y.com") none =
        (.ok 1,
          ⟨[], [⟨1, "fb-1", some "x@y.com", some "x", .null⟩], [], 2⟩,
          [.selectUsers, .insertUsers]) :=
  ⟨rfl, rfl, rfl, rfl,
   syncFirebaseUser_username_from_email ⟨[], [], [], 1⟩ "fb-1" "x@y.com" none
     rfl rfl rfl rfl⟩

/-- C8: `updateUserDailyCalorieTarget` normalizes the target before storing:
`null` and `undefined` are stored and returned as the explicit unset value
`null`, the numeric string `"1800"` is stored and returned as the number
1800, and in general every `users` row matching the id ends up holding the
normalized value. -/
theorem updateTarget_normalizes (db : DB) (userId : Nat) :
    ((updateUserDailyCalorieTarget db userId .null).1 = .ok .null ∧
      (updateUserDailyCalorieTarget db userId .undefined).1 = .ok .null ∧
      (updateUserDailyCalorieTarget db userId (.str "1800")).1
        = .ok (.num (.val 1800))) ∧
    (∀ t : JSValue, ∀ u ∈ (updateUserDailyCalorieTarget db userId t).2.users,
      u.id = userId → u.daily_calorie_target = normalizeTarget t) := by
  refine ⟨⟨rfl, rfl, rfl⟩, ?_⟩
  intro t u hu hid
  simp only [updateUserDailyCalorieTarget, List.mem_map] at hu
  rcases hu with ⟨v, _, hveq⟩
  cases hb : (v.id == userId) with
  | true =>
    rw [hb] at hveq
    simp only [if_true] at hveq
    rw [← hveq]
  | false =>
    rw [hb] at hveq
    simp only [Bool.false_eq_true, if_false] at hveq
    exfalso
    rw [← hveq] at hid
    rw [hid] at hb
    simp at hb

theorem updateTarget_normalizes_witness :
    ((updateUserDailyCalorieTarget
        ⟨[], [⟨3, "fb", none, none, .num (.val 1500)⟩], [], 4⟩ 3 .null).1
      = .ok .null ∧
      (updateUserDailyCalorieTarget
        ⟨[], [⟨3, "fb", none, none, .num (.val 1500)⟩], [], 4⟩ 3 .undefined).1
      = .ok .null ∧
      (updateUserDailyCalorieTarget
        ⟨[], [⟨3, "fb", none, none, .num (.val 1500)⟩], [], 4⟩ 3 (.str "1800")).1
      = .ok (.num (.val 1800))) ∧
    (∀ t : JSValue, ∀ u ∈ (updateUserDailyCalorieTarget
        ⟨[], [⟨3, "fb", none, none, .num (.val 1500)⟩], [], 4⟩ 3 t).2.users,
      u.id = 3 → u.daily_calorie_target = normalizeTarget t) :=
  updateTarget_normalizes ⟨[], [⟨3, "fb", none, none, .num (.val 1500)⟩], [], 4⟩ 3

/-- C9: `getUserDailyCalorieTarget` returns — rather than throwing — in all
three cases: `null` when no `users` row has the id, `null` when the row
exists with an unset (`null`) target, and the numeric target when the row
has one. -/
theorem getTarget_numeric_or_null (db : DB) (userId : Nat) :
    (db.users.find? (fun u => u.id == userId) = none →
      getUserDailyCalorieTargetRun db userId = .ok .null) ∧
    (∀ u, db.users.find? (fun v => v.id == userId) = some u →
      (u.daily_calorie_target = .null →
        getUserDailyCalorieTargetRun db userId = .ok .null) ∧
      (∀ n : JSNum, u.daily_calorie_target = .num n →
        getUserDailyCalorieTargetRun db userId = .ok (.num n))) := by
  constructor
  · intro h
    simp [getUserDailyCalorieTargetRun, getUserDailyCalorieTarget,
      selectUserById, h]
  · intro u hu
    constructor
    · intro ht
      simp [getUserDailyCalorieTargetRun, getUserDailyCalorieTarget,
        selectUserById, hu, ht, jsNullish]
    · intro n hn
      simp [getUserDailyCalorieTargetRun, getUserDailyCalorieTarget,
        selectUserById, hu, hn, jsNullish]

theorem getTarget_numeric_or_null_witness :
    getUserDailyCalorieTargetRun ⟨[], [], [], 1⟩ 9 = .ok .null ∧
      getUserDailyCalorieTargetRun
        ⟨[], [⟨3, "fb", none, none, .num (.val 2000)⟩], [], 4⟩ 3
      = .ok (.num (.val 2000)) :=
  ⟨(getTarget_numeric_or_null ⟨[], [], [], 1⟩ 9).1 rfl,
   ((getTarget_numeric_or_null
       ⟨[], [⟨3, "fb", none, none, .num (.val 2000)⟩], [], 4⟩ 3).2
     ⟨3, "fb", none, none, .num (.val 2000)⟩ rfl).2 (.val 2000) rfl⟩

end PiringSehat
